import Mathlib

/-! # restclient: a shallow embedding of `error.go` and `restclient.go`

Go values are modelled as follows.

* `string` and `[]byte` are Lean `String`s (a Go string is a byte sequence and the
  conversions `[]byte(s)`, `string(b)` copy it unchanged); a `[]byte` result that may be the
  nil slice is an `Option String`, `none` being nil.
* An `error` is an `Option GoError`, `none` being the nil error.
* The result target `v interface{}` is an `Option τ`: `none` is the nil interface, `some t`
  a target whose referent currently holds `t`.
* The payload `data interface{}` is a `Payload π`, following the three arms of the type
  switch in `prepareRequestBody`.
* The map `m map[string]string` is the list of its entries in the order in which
  `for k, v := range m` yields them (Go leaves that order unspecified).
* The standard library (`net/url`, `encoding/json`, `net/http`) is a record `Lib` of
  functions; the transport and the debug logger are the fields of `DefaultClient`.
* What `Request` does to the outside world is recorded as a list of `Event`s.
-/

set_option linter.dupNamespace false

namespace Restclient

/-! ## error.go -/

/-- Source `type Error struct` (error.go, lines 8-12). -/
structure Error where
  Code : Int
  Description : String
  Parameter : String
deriving DecidableEq, Repr

/-- Source `func (e Error) Error() string` (error.go, lines 14-16). -/
def Error.Error (e : Error) : String :=
  e.Description

/-- Source `type ErrorResponse struct` (error.go, lines 18-20). -/
structure ErrorResponse where
  Errors : List Error
deriving DecidableEq, Repr

/-- Go `strings.Join(elems, sep)`: the empty string for no element, the element itself for
one, otherwise the first element followed by `sep` and the next element, for each further
element in turn. -/
def stringsJoin (elems : List String) (sep : String) : String :=
  match elems with
  | [] => ""
  | [a] => a
  | a :: rest => rest.foldl (fun b s => b ++ sep ++ s) a

/-- Source `func (r ErrorResponse) Error() string` (error.go, lines 22-28): the loop appends
`inner.Error()` to `inners` for each element of `r.Errors`, then
`fmt.Sprintf("API errors: %s", strings.Join(inners, ", "))`. -/
def ErrorResponse.Error (r : ErrorResponse) : String :=
  let inners := r.Errors.foldl (fun inners inner => inners ++ [inner.Error]) []
  "API errors: " ++ stringsJoin inners ", "

/-- The rendering of an `ErrorResponse` in the words of the specification:
`"API errors: " + join(each inner Error.message(), ", ")`. -/
def ErrorResponse.specMessage (r : ErrorResponse) : String :=
  "API errors: " ++ String.intercalate ", " (r.Errors.map (fun e => e.Description))

/-! ## Go error values -/

/-- The error values that reach `Request`.
`ErrUnexpectedResponse` is the package variable of restclient.go, line 20; `errorf` is a
value built by `fmt.Errorf`; `apiErrors` is an `ErrorResponse` returned as an `error`;
`foreign` is any error value made elsewhere (by the standard library, the transport or a
custom error reader), identified by its message. -/
inductive GoError where
  | ErrUnexpectedResponse
  | errorf (msg : String)
  | apiErrors (r : ErrorResponse)
  | foreign (msg : String)
deriving DecidableEq, Repr

/-- The `Error()` method of an error value. -/
def GoError.Error : GoError → String
  | .ErrUnexpectedResponse => "the API is currently unavailable"
  | .errorf msg => msg
  | .apiErrors r => r.Error
  | .foreign msg => msg

/-! ## restclient.go: content types and the request body -/

/-- Source `type contentType string` (restclient.go, line 32). -/
abbrev ContentType := String

/-- Source constant `contentTypeEmpty` (line 35). -/
def contentTypeEmpty : ContentType := ""

/-- Source constant `contentTypeJSON` (line 36). -/
def contentTypeJSON : ContentType := "application/json"

/-- Source constant `contentTypeFormURLEncoded` (line 37). -/
def contentTypeFormURLEncoded : ContentType := "application/x-www-form-urlencoded"

/-- The dynamic type of the payload `data interface{}`, as the type switch of
`prepareRequestBody` sees it: the nil interface, a `string`, or a value of any other type. -/
inductive Payload (π : Type) where
  | nil
  | str (s : String)
  | other (x : π)
deriving DecidableEq, Repr

/-- Source `func prepareRequestBody(data interface{}) ([]byte, contentType, error)`
(restclient.go, lines 139-152); `jsonMarshal` is `json.Marshal`. -/
def prepareRequestBody {π : Type} (jsonMarshal : π → Except GoError String)
    (data : Payload π) : Option String × ContentType × Option GoError :=
  match data with
  | .nil => (none, contentTypeEmpty, none)
  | .str s => (some s, contentTypeFormURLEncoded, none)
  | .other x =>
    match jsonMarshal x with
    | .error err => (none, "", some err)
    | .ok b => (some b, contentTypeJSON, none)

/-! ## The standard library, as far as `Request` uses it -/

deriving instance DecidableEq for Except

/-- Go `validHeaderFieldByte` of `net/textproto`: the bytes allowed in a header name (the
`token` characters of RFC 7230). -/
def validHeaderFieldByte (c : Char) : Bool :=
  c.isAlphanum || "!#$%&\x27*+-.^_\x60|~".toList.contains c

/-- The rewriting loop of Go `canonicalMIMEHeaderKey`: upper case for the first letter and
for a letter after a dash, lower case for every other letter. -/
def canonicalizeChars : Bool → List Char → List Char
  | _, [] => []
  | upper, c :: cs =>
    let c1 := if upper && c.isLower then c.toUpper
              else if !upper && c.isUpper then c.toLower else c
    c1 :: canonicalizeChars (c1 == '-') cs

/-- Go `textproto.CanonicalMIMEHeaderKey`: a key holding a byte that is not a header field
byte is returned unchanged, any other key is rewritten by `canonicalizeChars`. -/
def canonicalMIMEHeaderKey (s : String) : String :=
  if s.toList.all validHeaderFieldByte then String.mk (canonicalizeChars true s.toList) else s

/-- Go `http.Header` (`map[string][]string`) as an association list with at most one entry
for a key. -/
structure Header where
  entries : List (String × List String)
deriving DecidableEq, Repr

/-- The map access `h[key]`: `none` when the header has no entry for `key`. -/
def Header.values (h : Header) (key : String) : Option (List String) :=
  (h.entries.find? (fun e => e.1 == key)).map (fun e => e.2)

/-- Go `Header.Set(key, value)`: `h[CanonicalMIMEHeaderKey(key)] = []string{value}`. -/
def Header.Set (h : Header) (key value : String) : Header :=
  ⟨(canonicalMIMEHeaderKey key, [value]) ::
    h.entries.filter (fun e => e.1 != canonicalMIMEHeaderKey key)⟩

/-- Go `Header.Get(key)`: the first value stored for the canonical form of `key`, or the
empty string. -/
def Header.Get (h : Header) (key : String) : String :=
  match h.values (canonicalMIMEHeaderKey key) with
  | some (v :: _) => v
  | _ => ""

/-- Go `*url.URL`, identified with the text that its `String()` method renders. -/
structure URL where
  text : String
deriving DecidableEq, Repr

/-- Go `func (u *URL) String() string`. -/
def URL.String (u : URL) : String := u.text

/-- Go `*http.Request`, as far as `Request` touches it. -/
structure HTTPRequest where
  Method : String
  URL : String
  Body : String
  Header : Header
deriving DecidableEq, Repr

/-- Go `*http.Response`, as far as `Request` touches it: the status code, and what
`io.ReadAll(response.Body)` returns. -/
structure HTTPResponse where
  StatusCode : Int
  Body : Except GoError String

/-- The functions of the Go standard library whose results `Request` depends on. `τ` is the
type of the value the result target refers to, `π` the type of the payloads that are
neither nil nor a string.

* `urlParse` is `url.Parse`.
* `jsonMarshal` is `json.Marshal`.
* `newRequestCheck method url` is the error with which `http.NewRequest` rejects a method
  or URL, if it does.
* `checkValid` is the syntax check that `json.Unmarshal` runs over the whole input before it
  writes anything; `decodeTarget` and `decodeErrorResponse` are the decoding pass that
  follows it, for the result target and for an `ErrorResponse`: they return the value left
  in the destination (for the result target, in what the caller's `v` refers to) and the
  error reported, if any. -/
structure Lib (τ π : Type) where
  urlParse : String → Except GoError URL
  jsonMarshal : π → Except GoError String
  newRequestCheck : String → String → Option GoError
  checkValid : String → Option GoError
  decodeTarget : String → τ → τ × Option GoError
  decodeErrorResponse : String → ErrorResponse → ErrorResponse × Option GoError

/-- Go `json.Unmarshal(data, &v)`: `checkValid` first, returning its error with the
destination untouched; otherwise the decoding pass. -/
def jsonUnmarshal {α : Type} (checkValid : String → Option GoError)
    (decode : String → α → α × Option GoError) (data : String) (v : α) : α × Option GoError :=
  match checkValid data with
  | some err => (v, some err)
  | none => decode data v

/-- Go `http.NewRequest(method, url, body)`: an error for a method or URL it rejects,
otherwise a request with an empty header (an empty method means GET). -/
def httpNewRequest {τ π : Type} (lib : Lib τ π) (method url body : String) :
    Except GoError HTTPRequest :=
  match lib.newRequestCheck method url with
  | some err => .error err
  | none => .ok ⟨if method = "" then "GET" else method, url, body, ⟨[]⟩⟩

/-- Go `http.StatusOK`. -/
def StatusOK : Int := 200
/-- Go `http.StatusCreated`. -/
def StatusCreated : Int := 201
/-- Go `http.StatusAccepted`. -/
def StatusAccepted : Int := 202
/-- Go `http.StatusNoContent`. -/
def StatusNoContent : Int := 204
/-- Go `http.StatusInternalServerError`. -/
def StatusInternalServerError : Int := 500

/-! ## restclient.go: the client -/

/-- Source `type errorReader func([]byte) error` (restclient.go, line 40). -/
abbrev ErrorReader := String → Option GoError

/-- Source `type DefaultClient struct` (lines 27-30). `HTTPClient` is the behaviour of
`c.HTTPClient.Do` (the client is taken to have a transport, as the one `New` builds has);
`DebugLog` tells whether a logger is set. -/
structure DefaultClient where
  HTTPClient : HTTPRequest → Except GoError HTTPResponse
  DebugLog : Bool

/-- What a call of `Request` does besides returning: each constructor is one call that
leaves the function. -/
inductive Event where
  /-- Call of `c.DebugLog.Printf`, with the formatted line. -/
  | debugLog (line : String)
  /-- Call of `c.HTTPClient.Do(request)`. -/
  | httpDo (request : HTTPRequest)
  /-- Call of `io.ReadAll(response.Body)`. -/
  | readAll
  /-- The deferred `Body.Close()`. -/
  | bodyClose
  /-- Call of `json.Unmarshal(data, &v)` on the result target (line 111). -/
  | jsonUnmarshal (data : String)
  /-- Call of `customErrorReader(b)` (line 122). -/
  | customErrorReader (b : String)
  /-- Call of `defaultErrorReader(b)` (line 125), which decodes `b` with `json.Unmarshal`. -/
  | defaultErrorReader (b : String)
deriving DecidableEq, Repr

/-- Whether the event hands a request to the transport. -/
def Event.isHTTPDo : Event → Bool
  | .httpDo _ => true
  | _ => false

/-- Whether the event decodes a response body as JSON. -/
def Event.isDecode : Event → Bool
  | .jsonUnmarshal _ => true
  | .defaultErrorReader _ => true
  | _ => false

/-- Whether the event calls an error-body interpreter, custom or default. -/
def Event.isErrorReader : Event → Bool
  | .customErrorReader _ => true
  | .defaultErrorReader _ => true
  | _ => false

/-- The result of a call of `Request`: the error returned, the value the result target
holds afterwards, and the events of the call in order. -/
structure Outcome (τ : Type) where
  err : Option GoError
  v : Option τ
  events : List Event

/-- Source `func defaultErrorReader(b []byte) error` (restclient.go, lines 129-137). -/
def defaultErrorReader {τ π : Type} (lib : Lib τ π) (b : String) : Option GoError :=
  match jsonUnmarshal lib.checkValid lib.decodeErrorResponse b ⟨[]⟩ with
  | (_, some err) =>
    some (.errorf ("failed to unmarshal response json " ++ b ++ ", error: " ++ err.Error))
  | (errorResponse, none) => some (.apiErrors errorResponse)

/-- Lines 53-77 of `Request`: parse the path, prepare the body, make the request, apply
the entries of `m` in iteration order with `Header.Set`, then set `Content-Type` when the
content type is not empty. An error is what `Request` returns at once. -/
def buildRequest {τ π : Type} (lib : Lib τ π) (method path : String) (data : Payload π)
    (m : List (String × String)) : Except GoError HTTPRequest :=
  match lib.urlParse path with
  | .error err => .error err
  | .ok uri =>
    match prepareRequestBody lib.jsonMarshal data with
    | (_, _, some err) => .error err
    | (body, contentType, none) =>
      match httpNewRequest lib method uri.String (body.getD "") with
      | .error err => .error err
      | .ok request =>
        let request : HTTPRequest :=
          m.foldl (fun r kv => { r with Header := r.Header.Set kv.1 kv.2 }) request
        if contentType ≠ contentTypeEmpty then
          .ok { request with Header := request.Header.Set "Content-Type" contentType }
        else
          .ok request

/-- The line of the first debug log call (lines 80-84), `uri` being `uri.String()`. -/
def requestLogLine {π : Type} (method uri : String) (body : String) (data : Payload π) :
    String :=
  match data with
  | .nil => "HTTP REQUEST: " ++ method ++ " " ++ uri
  | _ => "HTTP REQUEST: " ++ method ++ " " ++ uri ++ " " ++ body

/-- Source `func (c *DefaultClient) Request(v interface{}, method, path string,
data interface{}, m map[string]string) error` (restclient.go, lines 52-127).
`customErrorReader` is the package variable of line 42, `none` when it is nil. Lines 53-77
are `buildRequest`; in the first log line `request.URL` is `uri.String()` and `request.Body`
is `body`. -/
def DefaultClient.Request {τ π : Type} (lib : Lib τ π) (customErrorReader : Option ErrorReader)
    (c : DefaultClient) (v : Option τ) (method path : String) (data : Payload π)
    (m : List (String × String)) : Outcome τ :=
  match buildRequest lib method path data m with
  | .error err => ⟨some err, v, []⟩
  | .ok request =>
    let log1 : List Event :=
      if c.DebugLog then [.debugLog (requestLogLine method request.URL request.Body data)]
      else []
    match c.HTTPClient request with
    | .error err => ⟨some err, v, log1 ++ [.httpDo request]⟩
    | .ok response =>
      match response.Body with
      | .error err => ⟨some err, v, log1 ++ [.httpDo request, .readAll, .bodyClose]⟩
      | .ok responseBody =>
        let log2 : List Event :=
          log1 ++ [.httpDo request, .readAll] ++
            (if c.DebugLog then [.debugLog ("HTTP RESPONSE: " ++ responseBody)] else [])
        if response.StatusCode = StatusOK ∨ response.StatusCode = StatusCreated
            ∨ response.StatusCode = StatusAccepted then
          match v with
          | some t =>
            match jsonUnmarshal lib.checkValid lib.decodeTarget responseBody t with
            | (t1, some err) =>
              ⟨some (.errorf ("could not decode response JSON, " ++ responseBody ++ ": "
                  ++ err.Error)),
                some t1, log2 ++ [.jsonUnmarshal responseBody, .bodyClose]⟩
            | (t1, none) => ⟨none, some t1, log2 ++ [.jsonUnmarshal responseBody, .bodyClose]⟩
          | none => ⟨none, none, log2 ++ [.bodyClose]⟩
        else if response.StatusCode = StatusNoContent then
          ⟨none, v, log2 ++ [.bodyClose]⟩
        else if response.StatusCode = StatusInternalServerError then
          ⟨some .ErrUnexpectedResponse, v, log2 ++ [.bodyClose]⟩
        else
          match customErrorReader with
          | some f => ⟨f responseBody, v, log2 ++ [.customErrorReader responseBody, .bodyClose]⟩
          | none =>
            ⟨defaultErrorReader lib responseBody, v,
              log2 ++ [.defaultErrorReader responseBody, .bodyClose]⟩

/-! ## A concrete library and client, for evaluating the definitions -/

/-- A result target type: Go `struct { Id int; Name string }` with the JSON names `id` and
`name`. -/
structure Item where
  Id : Int
  Name : String
deriving DecidableEq, Repr

/-- Payloads that are neither nil nor a string: a Go `bool`, or a Go `chan int`. -/
inductive DemoPayload where
  | flag (b : Bool)
  | channel
deriving DecidableEq, Repr

/-- The tokens of the JSON texts read by `demoLex`. -/
inductive Tok where
  | lbrace
  | rbrace
  | colon
  | comma
  | str (s : String)
  | num (n : Nat)
deriving DecidableEq, Repr

/-- Where the lexer is: between tokens, inside a string (characters read so far, last
first), or inside a number (value read so far). -/
inductive LexState where
  | idle
  | inString (acc : List Char)
  | inNumber (n : Nat)

/-- A character between tokens: `some none` for white space, `some (some t)` for the
punctuation token `t`, `none` for anything else. -/
def demoPunct (c : Char) : Option (Option Tok) :=
  if c = ' ' ∨ c = '\n' ∨ c = '\t' ∨ c = '\r' then some none
  else if c = '\x7b' then some (some .lbrace)
  else if c = '\x7d' then some (some .rbrace)
  else if c = ':' then some (some .colon)
  else if c = ',' then some (some .comma)
  else none

/-- A lexer for JSON texts made of braces, colons, commas, strings without escapes and
unsigned integers. The error is the message of the `json.SyntaxError`: the one for a text
that ends too early is Go's, the one for a character out of place is shortened (Go names
the character and what it was looking for). -/
def demoLex : LexState → List Char → Except String (List Tok)
  | .idle, [] => .ok []
  | .idle, c :: cs =>
    if c = '"' then demoLex (.inString []) cs
    else if c.isDigit then demoLex (.inNumber (c.toNat - 48)) cs
    else match demoPunct c with
      | none => .error "invalid character in JSON input"
      | some none => demoLex .idle cs
      | some (some t) => (demoLex .idle cs).map (fun ts => t :: ts)
  | .inString _, [] => .error "unexpected end of JSON input"
  | .inString acc, c :: cs =>
    if c = '"' then (demoLex .idle cs).map (fun ts => .str (String.mk acc.reverse) :: ts)
    else demoLex (.inString (c :: acc)) cs
  | .inNumber n, [] => .ok [.num n]
  | .inNumber n, c :: cs =>
    if c.isDigit then demoLex (.inNumber (10 * n + (c.toNat - 48))) cs
    else match demoPunct c with
      | none => .error "invalid character in JSON input"
      | some none => (demoLex .idle cs).map (fun ts => .num n :: ts)
      | some (some t) => (demoLex .idle cs).map (fun ts => .num n :: t :: ts)

/-- The members of a flat JSON object, after the opening brace: `"key": value` pairs
separated by commas and closed by a brace, a value being a string or a number. -/
def demoMembers : List Tok → Except String (List (String × Tok))
  | [] => .error "unexpected end of JSON input"
  | [.str _] => .error "unexpected end of JSON input"
  | [.str _, .colon] => .error "unexpected end of JSON input"
  | [.str _, .colon, .str _] => .error "unexpected end of JSON input"
  | [.str _, .colon, .num _] => .error "unexpected end of JSON input"
  | [.str k, .colon, .str s, .rbrace] => .ok [(k, .str s)]
  | [.str k, .colon, .num n, .rbrace] => .ok [(k, .num n)]
  | .str k :: .colon :: .str s :: .comma :: rest =>
    (demoMembers rest).map (fun ms => (k, .str s) :: ms)
  | .str k :: .colon :: .num n :: .comma :: rest =>
    (demoMembers rest).map (fun ms => (k, .num n) :: ms)
  | _ => .error "invalid character in JSON input"

/-- A reader for flat JSON objects: the members in order, or the syntax error. -/
def demoParse (data : String) : Except String (List (String × Tok)) :=
  match demoLex .idle data.toList with
  | .error e => .error e
  | .ok [] => .error "unexpected end of JSON input"
  | .ok [.lbrace] => .error "unexpected end of JSON input"
  | .ok [.lbrace, .rbrace] => .ok []
  | .ok (.lbrace :: rest) => demoMembers rest
  | .ok _ => .error "invalid character in JSON input"

/-- The syntax check of `json.Unmarshal`, for the JSON texts `demoParse` reads: flat objects
whose values are strings without escapes or unsigned integers. Any other text is reported
as malformed. -/
def demoCheckValid (data : String) : Option GoError :=
  match demoParse data with
  | .error e => some (.foreign e)
  | .ok _ => none

/-- The string with its ASCII letters in lower case. -/
def asciiLower (s : String) : String :=
  String.mk (s.toList.map Char.toLower)

/-- The decoding pass of `json.Unmarshal` into an `Item`, member by member as encoding/json
does it: a member whose name matches a field without regard to case is stored when its
value fits the field; when it does not, the field is skipped, the first such mismatch is
kept as the `json.UnmarshalTypeError` to return, and decoding goes on; other members are
ignored. -/
def demoDecodeItemMembers : List (String × Tok) → Item → Option GoError → Item × Option GoError
  | [], t, err => (t, err)
  | (k, val) :: ms, t, err =>
    if asciiLower k = "id" then
      match val with
      | .num n => demoDecodeItemMembers ms { t with Id := n } err
      | _ => demoDecodeItemMembers ms t (err.orElse fun _ => some (.foreign
          "json: cannot unmarshal string into Go struct field Item.id of type int"))
    else if asciiLower k = "name" then
      match val with
      | .str s => demoDecodeItemMembers ms { t with Name := s } err
      | _ => demoDecodeItemMembers ms t (err.orElse fun _ => some (.foreign
          "json: cannot unmarshal number into Go struct field Item.name of type string"))
    else demoDecodeItemMembers ms t err

/-- The decoding pass of `json.Unmarshal` into an `Item`. -/
def demoDecodeItem (data : String) (t : Item) : Item × Option GoError :=
  match demoParse data with
  | .error e => (t, some (.foreign e))
  | .ok ms => demoDecodeItemMembers ms t none

/-- The decoding pass of `json.Unmarshal` into an `ErrorResponse`, for flat objects: a
member named `errors` holds a string or a number where the field wants an array, which is a
`json.UnmarshalTypeError`; other members are ignored. -/
def demoDecodeErrorResponse (data : String) (r : ErrorResponse) :
    ErrorResponse × Option GoError :=
  match demoParse data with
  | .error e => (r, some (.foreign e))
  | .ok ms =>
    match ms.find? (fun kv => asciiLower kv.1 == "errors") with
    | some (_, .str _) => (r, some (.foreign
        "json: cannot unmarshal string into Go struct field ErrorResponse.errors of type []restclient.Error"))
    | some _ => (r, some (.foreign
        "json: cannot unmarshal number into Go struct field ErrorResponse.errors of type []restclient.Error"))
    | none => (r, none)

/-- A library instance. `url.Parse` rejects a path that holds an ASCII control character
and takes any other path as it is; `json.Marshal` renders a `bool` and rejects a channel;
`http.NewRequest` rejects a method that is not a token; JSON decoding is `demoCheckValid`,
`demoDecodeItem` and `demoDecodeErrorResponse`. -/
def demoLib : Lib Item DemoPayload where
  urlParse := fun path =>
    if path.toList.any (fun c => c.toNat < 32 || c.toNat == 127) then
      .error (.foreign "net/url: invalid control character in URL")
    else .ok ⟨path⟩
  jsonMarshal := fun x =>
    match x with
    | .flag true => .ok "true"
    | .flag false => .ok "false"
    | .channel => .error (.foreign "json: unsupported type: chan int")
  newRequestCheck := fun method _ =>
    if method.toList.all validHeaderFieldByte then none
    else some (.foreign "net/http: invalid method")
  checkValid := demoCheckValid
  decodeTarget := demoDecodeItem
  decodeErrorResponse := demoDecodeErrorResponse

/-- A client without a debug logger whose transport answers every request with the given
status code and body. -/
def demoClient (status : Int) (body : String) : DefaultClient where
  HTTPClient := fun _ => .ok ⟨status, .ok body⟩
  DebugLog := false

/-- The requests that a call handed to the transport, in order. -/
def Outcome.sent {τ : Type} (o : Outcome τ) : List HTTPRequest :=
  o.events.filterMap fun e =>
    match e with
    | .httpDo request => some request
    | _ => none

/-- The value that the map `m` gives for the header whose canonical name is `name`: the
value of the first entry of `m` whose key `Header.Set` stores under `name`. -/
def headerOf (m : List (String × String)) (name : String) : Option String :=
  (m.find? (fun kv => canonicalMIMEHeaderKey kv.1 == name)).map (fun kv => kv.2)

/-- No two keys of `m` name the same header: their canonical forms are pairwise distinct. -/
def CanonicalKeysDistinct (m : List (String × String)) : Prop :=
  (m.map (fun kv => canonicalMIMEHeaderKey kv.1)).Nodup

instance (m : List (String × String)) : Decidable (CanonicalKeysDistinct m) := by
  unfold CanonicalKeysDistinct; infer_instance

/-! ## Lemmas on headers -/

theorem find?_filter_key_ne (l : List (String × List String)) {key other : String}
    (hne : key ≠ other) :
    (l.filter (fun e => e.1 != other)).find? (fun e => e.1 == key)
      = l.find? (fun e => e.1 == key) := by
  induction l with
  | nil => rfl
  | cons e l ih =>
    by_cases h1 : e.1 = other
    · have h2 : ¬ e.1 = key := fun h => hne (h.symm.trans h1)
      have h3 : (e.1 != other) = false := by simp [h1]
      have h4 : (e.1 == key) = false := by simp [h2]
      rw [List.filter_cons, h3, List.find?_cons, h4]
      simpa using ih
    · have h3 : (e.1 != other) = true := by simp [h1]
      rw [List.filter_cons, h3]
      simp only [if_true, List.find?_cons, ih]

theorem Header.values_Set (h : Header) (key value name : String) :
    (h.Set key value).values name
      = if name = canonicalMIMEHeaderKey key then some [value] else h.values name := by
  by_cases hk : name = canonicalMIMEHeaderKey key
  · simp [Header.values, Header.Set, hk]
  · have hk2 : ¬ canonicalMIMEHeaderKey key = name := fun h => hk h.symm
    simp [Header.values, Header.Set, hk, hk2, List.find?_cons, find?_filter_key_ne _ hk]

theorem foldl_Set_fields (m : List (String × String)) (request : HTTPRequest) :
    m.foldl (fun r kv => { r with Header := r.Header.Set kv.1 kv.2 }) request
      = { request with Header := m.foldl (fun h kv => h.Set kv.1 kv.2) request.Header } := by
  induction m generalizing request with
  | nil => rfl
  | cons kv m ih => simp [List.foldl_cons, ih]

theorem foldl_Set_values (m : List (String × String)) (h : Header) (name : String)
    (hm : CanonicalKeysDistinct m) :
    (m.foldl (fun h kv => h.Set kv.1 kv.2) h).values name
      = match headerOf m name with
        | some value => some [value]
        | none => h.values name := by
  induction m generalizing h with
  | nil => rfl
  | cons kv m ih =>
    have hm2 : CanonicalKeysDistinct m := (List.nodup_cons.mp hm).2
    have hnot : canonicalMIMEHeaderKey kv.1 ∉ m.map (fun kv => canonicalMIMEHeaderKey kv.1) :=
      (List.nodup_cons.mp hm).1
    rw [List.foldl_cons, ih _ hm2]
    by_cases hk : canonicalMIMEHeaderKey kv.1 = name
    · have hnone : headerOf m name = none := by
        unfold headerOf
        rw [Option.map_eq_none', List.find?_eq_none]
        intro x hx hx2
        apply hnot
        rw [← hk] at hx2
        simp only [beq_iff_eq] at hx2
        rw [← hx2]
        exact List.mem_map_of_mem _ hx
      have hsome : headerOf (kv :: m) name = some kv.2 := by
        simp [headerOf, List.find?_cons, hk]
      rw [hnone, hsome]
      simp [Header.values_Set, hk]
    · have hcons : headerOf (kv :: m) name = headerOf m name := by
        simp [headerOf, List.find?_cons, hk]
      rw [hcons]
      cases headerOf m name with
      | some value => rfl
      | none =>
        have hk2 : ¬ name = canonicalMIMEHeaderKey kv.1 := fun h => hk h.symm
        simp [Header.values_Set, hk2]

/-! ## Lemmas on `Request` -/

theorem Request_of_buildRequest_error {τ π : Type} (lib : Lib τ π)
    (customErrorReader : Option ErrorReader) (c : DefaultClient) (v : Option τ)
    (method path : String) (data : Payload π) (m : List (String × String)) (err : GoError)
    (hreq : buildRequest lib method path data m = .error err) :
    c.Request lib customErrorReader v method path data m = ⟨some err, v, []⟩ := by
  simp only [DefaultClient.Request, hreq]

theorem countP_isHTTPDo_le_one {τ π : Type} (lib : Lib τ π)
    (customErrorReader : Option ErrorReader) (c : DefaultClient) (v : Option τ)
    (method path : String) (data : Payload π) (m : List (String × String)) :
    (c.Request lib customErrorReader v method path data m).events.countP Event.isHTTPDo ≤ 1 := by
  unfold DefaultClient.Request
  repeat' split
  all_goals simp [List.countP_cons, List.countP_append, Event.isHTTPDo]

theorem sent_eq_of_buildRequest {τ π : Type} (lib : Lib τ π)
    (customErrorReader : Option ErrorReader) (c : DefaultClient) (v : Option τ)
    (method path : String) (data : Payload π) (m : List (String × String))
    (request : HTTPRequest)
    (hreq : buildRequest lib method path data m = .ok request) :
    (c.Request lib customErrorReader v method path data m).sent = [request] := by
  unfold DefaultClient.Request
  rw [hreq]
  simp only []
  repeat' split
  all_goals simp [Outcome.sent, List.filterMap_cons, List.filterMap_append]

theorem buildRequest_of_mem_sent {τ π : Type} (lib : Lib τ π)
    (customErrorReader : Option ErrorReader) (c : DefaultClient) (v : Option τ)
    (method path : String) (data : Payload π) (m : List (String × String))
    (request : HTTPRequest)
    (hsent : request ∈ (c.Request lib customErrorReader v method path data m).sent) :
    buildRequest lib method path data m = .ok request := by
  cases hreq : buildRequest lib method path data m with
  | error err =>
    rw [Request_of_buildRequest_error lib customErrorReader c v method path data m err hreq]
      at hsent
    simp [Outcome.sent] at hsent
  | ok r =>
    rw [sent_eq_of_buildRequest lib customErrorReader c v method path data m r hreq] at hsent
    rw [List.mem_singleton.mp hsent]

/-! ## Status-code classification -/

/-- C1. When the transport call and the body read succeed and the status code is 500,
`Request` returns the sentinel `ErrUnexpectedResponse`, whatever the body, the result target,
the payload, the header map and the custom error reader are; the target keeps its value and
the call neither decodes the body nor calls an error-body interpreter. -/
theorem request_status_500_returns_sentinel {τ π : Type} (lib : Lib τ π)
    (customErrorReader : Option ErrorReader) (c : DefaultClient) (v : Option τ)
    (method path : String) (data : Payload π) (m : List (String × String))
    (request : HTTPRequest) (response : HTTPResponse) (responseBody : String)
    (hreq : buildRequest lib method path data m = .ok request)
    (hdo : c.HTTPClient request = .ok response)
    (hread : response.Body = .ok responseBody)
    (hcode : response.StatusCode = 500) :
    (c.Request lib customErrorReader v method path data m).err = some .ErrUnexpectedResponse
    ∧ (c.Request lib customErrorReader v method path data m).v = v
    ∧ (c.Request lib customErrorReader v method path data m).events.countP Event.isDecode = 0
    ∧ (c.Request lib customErrorReader v method path data m).events.countP
        Event.isErrorReader = 0 := by
  simp only [DefaultClient.Request, hreq, hdo, hread, hcode, StatusOK, StatusCreated,
    StatusAccepted, StatusNoContent, StatusInternalServerError]
  cases c.DebugLog <;> simp [List.countP_cons, Event.isDecode, Event.isErrorReader]

/-- C2. When the transport call and the body read succeed and the status code is 204,
`Request` returns the nil error, makes no attempt to decode the body, and leaves the result
target as it was, whatever the body and the target are. -/
theorem request_status_204_returns_nil {τ π : Type} (lib : Lib τ π)
    (customErrorReader : Option ErrorReader) (c : DefaultClient) (v : Option τ)
    (method path : String) (data : Payload π) (m : List (String × String))
    (request : HTTPRequest) (response : HTTPResponse) (responseBody : String)
    (hreq : buildRequest lib method path data m = .ok request)
    (hdo : c.HTTPClient request = .ok response)
    (hread : response.Body = .ok responseBody)
    (hcode : response.StatusCode = 204) :
    (c.Request lib customErrorReader v method path data m).err = none
    ∧ (c.Request lib customErrorReader v method path data m).v = v
    ∧ (c.Request lib customErrorReader v method path data m).events.countP Event.isDecode
        = 0 := by
  simp only [DefaultClient.Request, hreq, hdo, hread, hcode, StatusOK, StatusCreated,
    StatusAccepted, StatusNoContent, StatusInternalServerError]
  cases c.DebugLog <;> simp [List.countP_cons, Event.isDecode]

/-- C4. For a response whose status code is neither 2xx nor 500: with a custom error reader
`f` installed, `Request` returns `f` of the response body, calls `f` on that body, and does
not call `defaultErrorReader` or decode the body itself; with none installed it returns
`defaultErrorReader` of the response body. -/
theorem request_error_status_uses_error_reader {τ π : Type} (lib : Lib τ π)
    (c : DefaultClient) (v : Option τ)
    (method path : String) (data : Payload π) (m : List (String × String))
    (request : HTTPRequest) (response : HTTPResponse) (responseBody : String)
    (hreq : buildRequest lib method path data m = .ok request)
    (hdo : c.HTTPClient request = .ok response)
    (hread : response.Body = .ok responseBody)
    (h2xx : ¬ (200 ≤ response.StatusCode ∧ response.StatusCode ≤ 299))
    (h500 : response.StatusCode ≠ 500) :
    (∀ f : ErrorReader,
      (c.Request lib (some f) v method path data m).err = f responseBody
      ∧ Event.customErrorReader responseBody
          ∈ (c.Request lib (some f) v method path data m).events
      ∧ (c.Request lib (some f) v method path data m).events.countP Event.isDecode = 0)
    ∧ (c.Request lib none v method path data m).err = defaultErrorReader lib responseBody := by
  have h200 : response.StatusCode ≠ 200 := fun h => h2xx (by omega)
  have h201 : response.StatusCode ≠ 201 := fun h => h2xx (by omega)
  have h202 : response.StatusCode ≠ 202 := fun h => h2xx (by omega)
  have h204 : response.StatusCode ≠ 204 := fun h => h2xx (by omega)
  refine ⟨fun f => ?_, ?_⟩
  · simp only [DefaultClient.Request, hreq, hdo, hread, StatusOK, StatusCreated,
      StatusAccepted, StatusNoContent, StatusInternalServerError, h200, h201, h202, h204,
      h500, or_self, if_false]
    cases c.DebugLog <;> simp [List.countP_cons, Event.isDecode]
  · simp only [DefaultClient.Request, hreq, hdo, hread, StatusOK, StatusCreated,
      StatusAccepted, StatusNoContent, StatusInternalServerError, h200, h201, h202, h204,
      h500, or_self, if_false]

/-- C10. With no custom error reader installed and a transport call and body read that
succeed: the result of `Request` is nil only for the status codes 200, 201, 202 and 204; it
is the sentinel `ErrUnexpectedResponse` exactly for the status code 500; and for every other
status code it is a non-nil error that is an `ErrorResponse` value or the decoding error built
from the raw body and the decoder error, whatever the result target is. -/
theorem request_result_by_status_code {τ π : Type} (lib : Lib τ π)
    (c : DefaultClient) (v : Option τ)
    (method path : String) (data : Payload π) (m : List (String × String))
    (request : HTTPRequest) (response : HTTPResponse) (responseBody : String)
    (hreq : buildRequest lib method path data m = .ok request)
    (hdo : c.HTTPClient request = .ok response)
    (hread : response.Body = .ok responseBody) :
    ((c.Request lib none v method path data m).err = none →
      response.StatusCode = 200 ∨ response.StatusCode = 201 ∨ response.StatusCode = 202
        ∨ response.StatusCode = 204)
    ∧ ((c.Request lib none v method path data m).err = some .ErrUnexpectedResponse
        ↔ response.StatusCode = 500)
    ∧ (¬ (response.StatusCode = 200 ∨ response.StatusCode = 201 ∨ response.StatusCode = 202
          ∨ response.StatusCode = 204 ∨ response.StatusCode = 500) →
        (∃ r : ErrorResponse, (c.Request lib none v method path data m).err = some (.apiErrors r))
        ∨ (∃ e : GoError, (c.Request lib none v method path data m).err
            = some (.errorf ("failed to unmarshal response json " ++ responseBody
                ++ ", error: " ++ e.Error)))) := by
  have hdefault : (∃ r : ErrorResponse, defaultErrorReader lib responseBody = some (.apiErrors r))
      ∨ (∃ e : GoError, defaultErrorReader lib responseBody
          = some (.errorf ("failed to unmarshal response json " ++ responseBody
              ++ ", error: " ++ e.Error))) := by
    unfold defaultErrorReader
    split
    · next err _ => exact Or.inr ⟨err, rfl⟩
    · next r _ => exact Or.inl ⟨r, rfl⟩
  by_cases hok : response.StatusCode = 200 ∨ response.StatusCode = 201
      ∨ response.StatusCode = 202
  · have h204 : response.StatusCode ≠ 204 := by omega
    have h500 : response.StatusCode ≠ 500 := by omega
    have hne : (c.Request lib none v method path data m).err ≠ some .ErrUnexpectedResponse := by
      simp only [DefaultClient.Request, hreq, hdo, hread, StatusOK, StatusCreated,
        StatusAccepted, hok, if_true]
      cases v with
      | none => simp
      | some t =>
        simp only []
        split <;> simp
    refine ⟨fun _ => by omega, ⟨fun h => absurd h hne, fun h => absurd h h500⟩, fun h => ?_⟩
    exact absurd (by omega) h
  · by_cases h204 : response.StatusCode = 204
    · have herr : (c.Request lib none v method path data m).err = none := by
        simp [DefaultClient.Request, hreq, hdo, hread, StatusOK, StatusCreated,
          StatusAccepted, StatusNoContent, h204]
      refine ⟨fun _ => by omega, ⟨fun h => ?_, fun h => by omega⟩, fun h => ?_⟩
      · rw [herr] at h; cases h
      · exact absurd (by omega) h
    · by_cases h500 : response.StatusCode = 500
      · have herr : (c.Request lib none v method path data m).err
            = some .ErrUnexpectedResponse := by
          simp [DefaultClient.Request, hreq, hdo, hread, StatusOK, StatusCreated,
            StatusAccepted, StatusNoContent, StatusInternalServerError, h500]
        refine ⟨fun h => ?_, ⟨fun _ => h500, fun _ => herr⟩, fun h => ?_⟩
        · rw [herr] at h; cases h
        · exact absurd (by omega) h
      · have herr : (c.Request lib none v method path data m).err
            = defaultErrorReader lib responseBody := by
          simp only [DefaultClient.Request, hreq, hdo, hread, StatusOK, StatusCreated,
            StatusAccepted, StatusNoContent, StatusInternalServerError, hok, h204, h500,
            if_false]
        rw [herr]
        refine ⟨fun h => ?_, ⟨fun h => ?_, fun h => absurd h h500⟩, fun _ => hdefault⟩
        · rcases hdefault with ⟨r, hr⟩ | ⟨e, he⟩
          · rw [hr] at h; cases h
          · rw [he] at h; cases h
        · rcases hdefault with ⟨r, hr⟩ | ⟨e, he⟩
          · rw [hr] at h; cases h
          · rw [he] at h; cases h

/-! ## Input errors -/

/-- C9. A call of `Request` whose path fails to parse, or whose path parses and whose
payload fails to serialize, returns that error with no event at all (the transport is not
invoked) and the result target unchanged; and every call invokes the transport at most
once. -/
theorem request_input_error_before_transport {τ π : Type} (lib : Lib τ π)
    (customErrorReader : Option ErrorReader) (c : DefaultClient) (v : Option τ)
    (method path : String) (data : Payload π) (m : List (String × String)) :
    (∀ err : GoError, lib.urlParse path = .error err →
      (c.Request lib customErrorReader v method path data m).err = some err
      ∧ (c.Request lib customErrorReader v method path data m).v = v
      ∧ (c.Request lib customErrorReader v method path data m).events = []
      ∧ (c.Request lib customErrorReader v method path data m).events.countP Event.isHTTPDo
          = 0)
    ∧ (∀ (uri : URL) (x : π) (err : GoError), lib.urlParse path = .ok uri →
        data = .other x → lib.jsonMarshal x = .error err →
      (c.Request lib customErrorReader v method path data m).err = some err
      ∧ (c.Request lib customErrorReader v method path data m).v = v
      ∧ (c.Request lib customErrorReader v method path data m).events = []
      ∧ (c.Request lib customErrorReader v method path data m).events.countP Event.isHTTPDo
          = 0)
    ∧ (c.Request lib customErrorReader v method path data m).events.countP Event.isHTTPDo
        ≤ 1 := by
  refine ⟨fun err hparse => ?_, fun uri x err hparse hdata hmarshal => ?_,
    countP_isHTTPDo_le_one lib customErrorReader c v method path data m⟩
  · have hreq : buildRequest lib method path data m = .error err := by
      simp only [buildRequest, hparse]
    rw [Request_of_buildRequest_error lib customErrorReader c v method path data m err hreq]
    simp
  · have hreq : buildRequest lib method path data m = .error err := by
      simp only [buildRequest, hparse, hdata, prepareRequestBody, hmarshal]
    rw [Request_of_buildRequest_error lib customErrorReader c v method path data m err hreq]
    simp

/-! ## The request body -/

/-- C6. For a payload that is neither nil nor a string: when `json.Marshal` succeeds with
bytes `b`, `prepareRequestBody` returns `b`, the content type `application/json` and the nil
error; when it fails with `e`, `prepareRequestBody` returns nil bytes and `e`. -/
theorem prepareRequestBody_other {π : Type} (jsonMarshal : π → Except GoError String)
    (x : π) :
    (∀ b : String, jsonMarshal x = .ok b →
      prepareRequestBody jsonMarshal (.other x) = (some b, "application/json", none))
    ∧ (∀ e : GoError, jsonMarshal x = .error e →
      prepareRequestBody jsonMarshal (.other x) = (none, contentTypeEmpty, some e)) := by
  constructor
  · intro b hb
    simp only [prepareRequestBody, hb, contentTypeJSON]
  · intro e he
    simp only [prepareRequestBody, he, contentTypeEmpty]

/-- C7. For every string payload `s`, the empty string included, `prepareRequestBody`
returns the bytes of `s` unchanged, the content type `application/x-www-form-urlencoded` and
the nil error. -/
theorem prepareRequestBody_string {π : Type} (jsonMarshal : π → Except GoError String) :
    (∀ s : String, prepareRequestBody jsonMarshal (.str s)
      = (some s, "application/x-www-form-urlencoded", none))
    ∧ prepareRequestBody jsonMarshal (.str "")
      = (some "", "application/x-www-form-urlencoded", none) :=
  ⟨fun _ => rfl, rfl⟩

/-! ## Rendering of errors -/

theorem foldl_append_singleton {α β : Type} (f : α → β) (l : List α) (init : List β) :
    l.foldl (fun acc x => acc ++ [f x]) init = init ++ l.map f := by
  induction l generalizing init with
  | nil => simp
  | cons a l ih => simp [ih]

theorem intercalate_go_eq_foldl (sep : String) (l : List String) (acc : String) :
    String.intercalate.go acc sep l = l.foldl (fun b s => b ++ sep ++ s) acc := by
  induction l generalizing acc with
  | nil => rfl
  | cons a l ih => simp [String.intercalate.go, ih]

theorem stringsJoin_eq_intercalate (l : List String) (sep : String) :
    stringsJoin l sep = String.intercalate sep l := by
  cases l with
  | nil => rfl
  | cons a rest =>
    cases rest with
    | nil => rfl
    | cons b rest => simp [stringsJoin, String.intercalate, intercalate_go_eq_foldl]

/-- C5. For every `ErrorResponse` `r`, `r.Error()` is `"API errors: "` followed by the
`Description` fields of `r.Errors`, in order, joined with `", "`; for every `Error` `e`,
`e.Error()` is `e.Description`; and the response with the one error
`{40, "not found", "id"}` renders as `"API errors: not found"`. -/
theorem errorResponse_Error_eq_specMessage :
    (∀ r : ErrorResponse, r.Error = r.specMessage)
    ∧ (∀ e : Error, e.Error = e.Description)
    ∧ ErrorResponse.Error ⟨[⟨40, "not found", "id"⟩]⟩ = "API errors: not found"
    ∧ ErrorResponse.Error ⟨[]⟩ = "API errors: " := by
  refine ⟨fun r => ?_, fun _ => rfl, by decide, by decide⟩
  simp only [ErrorResponse.Error, ErrorResponse.specMessage, foldl_append_singleton,
    stringsJoin_eq_intercalate]
  rfl

/-! ## Decoding failures on the success path -/

/-- C8. For a status code of 200, 201 or 202, a result target holding `t` and a response
body that fails to decode as JSON, the syntax check of `json.Unmarshal` rejecting it with
the parse error `e` (as it does the truncated body `{"id":`): `Request` returns the non-nil
error built by `fmt.Errorf`, whose message holds the raw text of the body and the text of
`e`, and the target holds `t` after the call as before it. -/
theorem request_malformed_body_decode_error {τ π : Type} (lib : Lib τ π)
    (customErrorReader : Option ErrorReader) (c : DefaultClient) (t : τ)
    (method path : String) (data : Payload π) (m : List (String × String))
    (request : HTTPRequest) (response : HTTPResponse) (responseBody : String) (e : GoError)
    (hreq : buildRequest lib method path data m = .ok request)
    (hdo : c.HTTPClient request = .ok response)
    (hread : response.Body = .ok responseBody)
    (hcode : response.StatusCode = 200 ∨ response.StatusCode = 201
      ∨ response.StatusCode = 202)
    (hbad : lib.checkValid responseBody = some e) :
    (c.Request lib customErrorReader (some t) method path data m).err
      = some (.errorf ("could not decode response JSON, " ++ responseBody ++ ": " ++ e.Error))
    ∧ (∃ before after : String,
        ((c.Request lib customErrorReader (some t) method path data m).err.map GoError.Error)
          = some (before ++ responseBody ++ after))
    ∧ (∃ before after : String,
        ((c.Request lib customErrorReader (some t) method path data m).err.map GoError.Error)
          = some (before ++ e.Error ++ after))
    ∧ (c.Request lib customErrorReader (some t) method path data m).v = some t := by
  have herr : (c.Request lib customErrorReader (some t) method path data m).err
      = some (.errorf ("could not decode response JSON, " ++ responseBody ++ ": "
          ++ e.Error)) := by
    simp only [DefaultClient.Request, hreq, hdo, hread, StatusOK, StatusCreated,
      StatusAccepted, hcode, if_true, jsonUnmarshal, hbad]
  have hv : (c.Request lib customErrorReader (some t) method path data m).v = some t := by
    simp only [DefaultClient.Request, hreq, hdo, hread, StatusOK, StatusCreated,
      StatusAccepted, hcode, if_true, jsonUnmarshal, hbad]
  refine ⟨herr, ⟨"could not decode response JSON, ", ": " ++ e.Error, ?_⟩,
    ⟨"could not decode response JSON, " ++ responseBody ++ ": ", "", ?_⟩, hv⟩
  · rw [herr]
    simp [GoError.Error, String.append_assoc]
  · rw [herr]
    simp [GoError.Error, String.append_assoc]

/-! ## Headers of the request sent -/

theorem canonical_content_type : canonicalMIMEHeaderKey "Content-Type" = "Content-Type" := by
  decide

/-- C3, as amended. For a request that `Request` hands to the transport: with a payload
that is neither nil nor a string its `Content-Type` is `application/json`, and with a string
payload it is `application/x-www-form-urlencoded`, whatever the header map `m` holds; and
when no two keys of `m` have the same canonical form, every header other than `Content-Type`
has the value that `m` gives for it, under its canonical name, and is absent when `m` gives
none, and with a nil payload so has `Content-Type`. -/
theorem content_type_of_sent_request {τ π : Type} (lib : Lib τ π)
    (customErrorReader : Option ErrorReader) (c : DefaultClient) (v : Option τ)
    (method path : String) (data : Payload π) (m : List (String × String))
    (request : HTTPRequest)
    (hsent : request ∈ (c.Request lib customErrorReader v method path data m).sent) :
    (∀ x : π, data = .other x →
      request.Header.values "Content-Type" = some ["application/json"]
      ∧ request.Header.Get "Content-Type" = "application/json")
    ∧ (∀ s : String, data = .str s →
      request.Header.values "Content-Type" = some ["application/x-www-form-urlencoded"]
      ∧ request.Header.Get "Content-Type" = "application/x-www-form-urlencoded")
    ∧ (CanonicalKeysDistinct m →
      (data = .nil → request.Header.values "Content-Type"
          = (headerOf m "Content-Type").map (fun value => [value]))
      ∧ (∀ name : String, name ≠ "Content-Type" →
          request.Header.values name = (headerOf m name).map (fun value => [value]))) := by
  have hreq := buildRequest_of_mem_sent lib customErrorReader c v method path data m request
    hsent
  have hget : ∀ value : String, request.Header.values "Content-Type" = some [value] →
      request.Header.Get "Content-Type" = value := by
    intro value hvalue
    simp [Header.Get, canonical_content_type, hvalue]
  unfold buildRequest at hreq
  cases hparse : lib.urlParse path with
  | error err => rw [hparse] at hreq; cases hreq
  | ok uri =>
    rw [hparse] at hreq
    simp only [] at hreq
    cases data with
    | nil =>
      simp only [prepareRequestBody, httpNewRequest] at hreq
      cases hnew : lib.newRequestCheck method uri.String with
      | some err => rw [hnew] at hreq; cases hreq
      | none =>
        rw [hnew] at hreq
        simp only [contentTypeEmpty, ne_eq, not_true_eq_false, if_false, foldl_Set_fields,
          Except.ok.injEq] at hreq
        subst hreq
        refine ⟨fun x hx => (by cases hx), fun s hs => (by cases hs), fun hm => ?_⟩
        have hall : ∀ name : String,
            (List.foldl (fun h kv => h.Set kv.1 kv.2) (⟨[]⟩ : Header) m).values name
              = (headerOf m name).map (fun value => [value]) := by
          intro name
          rw [foldl_Set_values m _ name hm]
          cases headerOf m name <;> rfl
        exact ⟨fun _ => hall _, fun name _ => hall name⟩
    | str s =>
      simp only [prepareRequestBody, httpNewRequest] at hreq
      cases hnew : lib.newRequestCheck method uri.String with
      | some err => rw [hnew] at hreq; cases hreq
      | none =>
        rw [hnew] at hreq
        have hne : contentTypeFormURLEncoded ≠ contentTypeEmpty := by decide
        simp only [hne, ne_eq, not_false_eq_true, if_true, foldl_Set_fields,
          Except.ok.injEq] at hreq
        subst hreq
        have hct : ∀ h : Header,
            (h.Set "Content-Type" contentTypeFormURLEncoded).values "Content-Type"
              = some ["application/x-www-form-urlencoded"] := by
          intro h
          simp [Header.values_Set, canonical_content_type, contentTypeFormURLEncoded]
        refine ⟨fun x hx => (by cases hx), fun _ _ => ⟨hct _, hget _ (hct _)⟩, fun hm => ?_⟩
        refine ⟨fun h => (by cases h), fun name hname => ?_⟩
        simp only [Header.values_Set, canonical_content_type, hname, if_false]
        rw [foldl_Set_values m _ name hm]
        cases headerOf m name <;> rfl
    | other x =>
      simp only [prepareRequestBody] at hreq
      cases hmarshal : lib.jsonMarshal x with
      | error err => rw [hmarshal] at hreq; cases hreq
      | ok b =>
        rw [hmarshal] at hreq
        simp only [httpNewRequest] at hreq
        cases hnew : lib.newRequestCheck method uri.String with
        | some err => rw [hnew] at hreq; cases hreq
        | none =>
          rw [hnew] at hreq
          have hne : contentTypeJSON ≠ contentTypeEmpty := by decide
          simp only [hne, ne_eq, not_false_eq_true, if_true, foldl_Set_fields,
            Except.ok.injEq] at hreq
          subst hreq
          have hct : ∀ h : Header,
              (h.Set "Content-Type" contentTypeJSON).values "Content-Type"
                = some ["application/json"] := by
            intro h
            simp [Header.values_Set, canonical_content_type, contentTypeJSON]
          refine ⟨fun _ _ => ⟨hct _, hget _ (hct _)⟩, fun s hs => (by cases hs), fun hm => ?_⟩
          refine ⟨fun h => (by cases h), fun name hname => ?_⟩
          simp only [Header.values_Set, canonical_content_type, hname, if_false]
          rw [foldl_Set_values m _ name hm]
          cases headerOf m name <;> rfl

/-! ## The theorems at concrete inputs -/

/-- Instance of C1: a POST of a JSON payload answered with status 500 and a body that is not
JSON, with a custom error reader installed. -/
theorem request_status_500_returns_sentinel_witness :
    buildRequest demoLib "POST" "/items" (.other (.flag true)) [("x-trace", "7")]
      = .ok ⟨"POST", "/items", "true",
          ⟨[("Content-Type", ["application/json"]), ("X-Trace", ["7"])]⟩⟩
    ∧ ((demoClient 500 "not json").Request demoLib (some fun _ => none) (some ⟨1, "a"⟩)
        "POST" "/items" (.other (.flag true)) [("x-trace", "7")]).err
        = some .ErrUnexpectedResponse
    ∧ ((demoClient 500 "not json").Request demoLib (some fun _ => none) (some ⟨1, "a"⟩)
        "POST" "/items" (.other (.flag true)) [("x-trace", "7")]).v = some ⟨1, "a"⟩
    ∧ ((demoClient 500 "not json").Request demoLib (some fun _ => none) (some ⟨1, "a"⟩)
        "POST" "/items" (.other (.flag true)) [("x-trace", "7")]).events.countP
          Event.isDecode = 0
    ∧ ((demoClient 500 "not json").Request demoLib (some fun _ => none) (some ⟨1, "a"⟩)
        "POST" "/items" (.other (.flag true)) [("x-trace", "7")]).events.countP
          Event.isErrorReader = 0 :=
  ⟨by decide,
    request_status_500_returns_sentinel demoLib (some fun _ => none)
      (demoClient 500 "not json") (some ⟨1, "a"⟩) "POST" "/items" (.other (.flag true))
      [("x-trace", "7")]
      ⟨"POST", "/items", "true", ⟨[("Content-Type", ["application/json"]), ("X-Trace", ["7"])]⟩⟩
      ⟨500, .ok "not json"⟩ "not json" (by decide) rfl rfl rfl⟩

/-- Instance of C2: a GET answered with status 204 and a truncated JSON body, with a
result target given. -/
theorem request_status_204_returns_nil_witness :
    buildRequest demoLib "GET" "/items" (.nil : Payload DemoPayload) []
      = .ok ⟨"GET", "/items", "", ⟨[]⟩⟩
    ∧ ((demoClient 204 "\x7b\"id\":").Request demoLib none (some ⟨1, "a"⟩)
        "GET" "/items" .nil []).err = none
    ∧ ((demoClient 204 "\x7b\"id\":").Request demoLib none (some ⟨1, "a"⟩)
        "GET" "/items" .nil []).v = some ⟨1, "a"⟩
    ∧ ((demoClient 204 "\x7b\"id\":").Request demoLib none (some ⟨1, "a"⟩)
        "GET" "/items" .nil []).events.countP Event.isDecode = 0 :=
  ⟨by decide,
    request_status_204_returns_nil demoLib none (demoClient 204 "\x7b\"id\":")
      (some ⟨1, "a"⟩) "GET" "/items" .nil [] ⟨"GET", "/items", "", ⟨[]⟩⟩
      ⟨204, .ok "\x7b\"id\":"⟩ "\x7b\"id\":" (by decide) rfl rfl rfl⟩

/-- Instance of C4: a GET answered with status 404 and an empty JSON object, with and
without a custom error reader that reports the body. -/
theorem request_error_status_uses_error_reader_witness :
    buildRequest demoLib "GET" "/items" (.nil : Payload DemoPayload) []
      = .ok ⟨"GET", "/items", "", ⟨[]⟩⟩
    ∧ ¬ ((200 : Int) ≤ 404 ∧ (404 : Int) ≤ 299)
    ∧ ((demoClient 404 "\x7b\x7d").Request demoLib (some fun b => some (.foreign b))
        (some ⟨1, "a"⟩) "GET" "/items" .nil []).err = some (.foreign "\x7b\x7d")
    ∧ ((demoClient 404 "\x7b\x7d").Request demoLib none
        (some ⟨1, "a"⟩) "GET" "/items" .nil []).err = some (.apiErrors ⟨[]⟩) :=
  ⟨by decide, by decide,
    ((request_error_status_uses_error_reader demoLib (demoClient 404 "\x7b\x7d")
      (some ⟨1, "a"⟩) "GET" "/items" .nil [] ⟨"GET", "/items", "", ⟨[]⟩⟩
      ⟨404, .ok "\x7b\x7d"⟩ "\x7b\x7d" (by decide) rfl rfl (by decide) (by decide)).1
        (fun b => some (.foreign b))).1,
    (request_error_status_uses_error_reader demoLib (demoClient 404 "\x7b\x7d")
      (some ⟨1, "a"⟩) "GET" "/items" .nil [] ⟨"GET", "/items", "", ⟨[]⟩⟩
      ⟨404, .ok "\x7b\x7d"⟩ "\x7b\x7d" (by decide) rfl rfl (by decide) (by decide)).2⟩

/-- Instance of C10: a GET answered with status 503 and a truncated JSON body, with no
result target: the error is not the sentinel but the decoding error of
`defaultErrorReader`. -/
theorem request_result_by_status_code_witness :
    buildRequest demoLib "GET" "/items" (.nil : Payload DemoPayload) []
      = .ok ⟨"GET", "/items", "", ⟨[]⟩⟩
    ∧ (((demoClient 503 "\x7b\"errors\":").Request demoLib none none
          "GET" "/items" .nil []).err = some .ErrUnexpectedResponse ↔ (503 : Int) = 500)
    ∧ ((demoClient 503 "\x7b\"errors\":").Request demoLib none none
          "GET" "/items" .nil []).err
        = some (.errorf ("failed to unmarshal response json \x7b\"errors\":, error: "
            ++ "unexpected end of JSON input")) :=
  ⟨by decide,
    (request_result_by_status_code demoLib (demoClient 503 "\x7b\"errors\":") none
      "GET" "/items" .nil [] ⟨"GET", "/items", "", ⟨[]⟩⟩ ⟨503, .ok "\x7b\"errors\":"⟩
      "\x7b\"errors\":" (by decide) rfl rfl).2.1,
    by decide⟩

/-- Instance of C9: a path holding a control character, and a channel as payload. -/
theorem request_input_error_before_transport_witness :
    demoLib.urlParse "/items\n"
      = .error (.foreign "net/url: invalid control character in URL")
    ∧ ((demoClient 200 "").Request demoLib none (some ⟨1, "a"⟩) "GET" "/items\n"
        (.str "a=1") []).err = some (.foreign "net/url: invalid control character in URL")
    ∧ ((demoClient 200 "").Request demoLib none (some ⟨1, "a"⟩) "GET" "/items\n"
        (.str "a=1") []).events = []
    ∧ demoLib.jsonMarshal .channel = .error (.foreign "json: unsupported type: chan int")
    ∧ ((demoClient 200 "").Request demoLib none (some ⟨1, "a"⟩) "POST" "/items"
        (.other .channel) []).err = some (.foreign "json: unsupported type: chan int")
    ∧ ((demoClient 200 "").Request demoLib none (some ⟨1, "a"⟩) "POST" "/items"
        (.other .channel) []).v = some ⟨1, "a"⟩
    ∧ ((demoClient 200 "").Request demoLib none (some ⟨1, "a"⟩) "POST" "/items"
        (.other .channel) []).events.countP Event.isHTTPDo = 0 :=
  ⟨by decide,
    ((request_input_error_before_transport demoLib none (demoClient 200 "") (some ⟨1, "a"⟩)
      "GET" "/items\n" (.str "a=1") []).1
        (.foreign "net/url: invalid control character in URL") (by decide)).1,
    ((request_input_error_before_transport demoLib none (demoClient 200 "") (some ⟨1, "a"⟩)
      "GET" "/items\n" (.str "a=1") []).1
        (.foreign "net/url: invalid control character in URL") (by decide)).2.2.1,
    by decide,
    ((request_input_error_before_transport demoLib none (demoClient 200 "") (some ⟨1, "a"⟩)
      "POST" "/items" (.other .channel) []).2.1 ⟨"/items"⟩ .channel
        (.foreign "json: unsupported type: chan int") (by decide) rfl (by decide)).1,
    ((request_input_error_before_transport demoLib none (demoClient 200 "") (some ⟨1, "a"⟩)
      "POST" "/items" (.other .channel) []).2.1 ⟨"/items"⟩ .channel
        (.foreign "json: unsupported type: chan int") (by decide) rfl (by decide)).2.1,
    ((request_input_error_before_transport demoLib none (demoClient 200 "") (some ⟨1, "a"⟩)
      "POST" "/items" (.other .channel) []).2.1 ⟨"/items"⟩ .channel
        (.foreign "json: unsupported type: chan int") (by decide) rfl (by decide)).2.2.2⟩

/-- Instance of C6: a `bool` payload is serialized, a channel payload is not. -/
theorem prepareRequestBody_other_witness :
    demoLib.jsonMarshal (.flag true) = .ok "true"
    ∧ prepareRequestBody demoLib.jsonMarshal (.other (.flag true))
        = (some "true", "application/json", none)
    ∧ demoLib.jsonMarshal .channel = .error (.foreign "json: unsupported type: chan int")
    ∧ prepareRequestBody demoLib.jsonMarshal (.other .channel)
        = (none, contentTypeEmpty, some (.foreign "json: unsupported type: chan int")) :=
  ⟨by decide,
    (prepareRequestBody_other demoLib.jsonMarshal (.flag true)).1 "true" (by decide),
    by decide,
    (prepareRequestBody_other demoLib.jsonMarshal .channel).2
      (.foreign "json: unsupported type: chan int") (by decide)⟩

/-- Instance of C8: status 200 with the truncated body `{"id":` and a target holding
`{1, "a"}`: the error reports the body and the syntax error, the target is as it was. -/
theorem request_malformed_body_decode_error_witness :
    buildRequest demoLib "GET" "/items" (.nil : Payload DemoPayload) []
      = .ok ⟨"GET", "/items", "", ⟨[]⟩⟩
    ∧ demoLib.checkValid "\x7b\"id\":" = some (.foreign "unexpected end of JSON input")
    ∧ ((demoClient 200 "\x7b\"id\":").Request demoLib none (some ⟨1, "a"⟩)
        "GET" "/items" .nil []).err
      = some (.errorf
          "could not decode response JSON, \x7b\"id\":: unexpected end of JSON input")
    ∧ ((demoClient 200 "\x7b\"id\":").Request demoLib none (some ⟨1, "a"⟩)
        "GET" "/items" .nil []).v = some ⟨1, "a"⟩ :=
  ⟨by decide, by decide,
    (request_malformed_body_decode_error demoLib none (demoClient 200 "\x7b\"id\":")
      ⟨1, "a"⟩ "GET" "/items" .nil [] ⟨"GET", "/items", "", ⟨[]⟩⟩
      ⟨200, .ok "\x7b\"id\":"⟩ "\x7b\"id\":" (.foreign "unexpected end of JSON input")
      (by decide) rfl rfl (Or.inl rfl) (by decide)).1,
    (request_malformed_body_decode_error demoLib none (demoClient 200 "\x7b\"id\":")
      ⟨1, "a"⟩ "GET" "/items" .nil [] ⟨"GET", "/items", "", ⟨[]⟩⟩
      ⟨200, .ok "\x7b\"id\":"⟩ "\x7b\"id\":" (.foreign "unexpected end of JSON input")
      (by decide) rfl rfl (Or.inl rfl) (by decide)).2.2.2⟩

/-- Instance of C3: a nil payload with a header map of two headers, `content-type` among
them, and a JSON payload with the same map. -/
theorem content_type_of_sent_request_witness :
    (⟨"GET", "/items", "", ⟨[("X-Trace", ["7"]), ("Content-Type", ["text/plain"])]⟩⟩
        : HTTPRequest)
      ∈ ((demoClient 204 "").Request demoLib none (none : Option Item) "GET" "/items" .nil
          [("content-type", "text/plain"), ("x-trace", "7")]).sent
    ∧ CanonicalKeysDistinct [("content-type", "text/plain"), ("x-trace", "7")]
    ∧ headerOf [("content-type", "text/plain"), ("x-trace", "7")] "Content-Type"
        = some "text/plain"
    ∧ Header.values ⟨[("X-Trace", ["7"]), ("Content-Type", ["text/plain"])]⟩ "Content-Type"
        = (headerOf [("content-type", "text/plain"), ("x-trace", "7")] "Content-Type").map
            (fun value => [value])
    ∧ (⟨"POST", "/items", "true",
          ⟨[("Content-Type", ["application/json"]), ("X-Trace", ["7"])]⟩⟩ : HTTPRequest)
      ∈ ((demoClient 204 "").Request demoLib none (none : Option Item) "POST" "/items"
          (.other (.flag true)) [("content-type", "text/plain"), ("x-trace", "7")]).sent
    ∧ Header.values ⟨[("Content-Type", ["application/json"]), ("X-Trace", ["7"])]⟩
        "Content-Type" = some ["application/json"] :=
  ⟨by decide, by decide, by decide,
    ((content_type_of_sent_request demoLib none (demoClient 204 "") (none : Option Item)
      "GET" "/items" .nil [("content-type", "text/plain"), ("x-trace", "7")]
      ⟨"GET", "/items", "", ⟨[("X-Trace", ["7"]), ("Content-Type", ["text/plain"])]⟩⟩
      (by decide)).2.2 (by decide)).1 rfl,
    by decide,
    ((content_type_of_sent_request demoLib none (demoClient 204 "") (none : Option Item)
      "POST" "/items" (.other (.flag true)) [("content-type", "text/plain"), ("x-trace", "7")]
      ⟨"POST", "/items", "true",
        ⟨[("Content-Type", ["application/json"]), ("X-Trace", ["7"])]⟩⟩
      (by decide)).1 (.flag true) rfl).1⟩

/-- Counterexample to C3 as stated: the map with the keys `Content-Type` (value
`text/plain`) and `content-type` (value `text/html`), sent with a nil payload. When
`range` yields `Content-Type` first the request carries `text/html`, which is not the value
the map gives for `Content-Type`; when it yields `content-type` first the request carries
`text/plain`. -/
theorem content_type_depends_on_iteration_order :
    (([("Content-Type", "text/plain"), ("content-type", "text/html")]
        : List (String × String)).map Prod.fst).Nodup
    ∧ List.lookup "Content-Type" [("Content-Type", "text/plain"), ("content-type", "text/html")]
        = some "text/plain"
    ∧ (((demoClient 204 "").Request demoLib none (none : Option Item) "GET" "/items" .nil
          [("Content-Type", "text/plain"), ("content-type", "text/html")]).sent.map
        (fun request => request.Header.values "Content-Type")) = [some ["text/html"]]
    ∧ (((demoClient 204 "").Request demoLib none (none : Option Item) "GET" "/items" .nil
          [("content-type", "text/html"), ("Content-Type", "text/plain")]).sent.map
        (fun request => request.Header.values "Content-Type")) = [some ["text/plain"]] := by
  decide

end Restclient
